import Mathlib

/-!
Verification of the RasterImage component (`src/image.cpp`).

The C++ `Image` class is shallowly embedded:
* `double` pixel samples are modelled as exact rationals `ℚ`;
* the CImg backing store is modelled as `CImgD` (a shape plus a total
  sample function); its unchecked `operator()` read is modelled by
  `cimgRead`, which returns `none` on an out-of-range index (the C++
  behaviour there is undefined, so any read outside the declared shape
  is flagged rather than given a value);
* a thrown `std::domain_error` in `at` is the `AtResult.domainError`
  outcome, and an out-of-range backing-store read inside `at`/`atH`
  is the `AtResult.undef` outcome;
* throwing constructors are modelled as `Except ImgError Image`.
-/

/-- The error kinds raised by the component: `formatError` for a file
decode with an unsupported channel count, `invalidArgument` for an
explicit-size construction with an unsupported channel count, and
`domainError` for out-of-domain queries. -/
inductive ImgError where
  | formatError
  | invalidArgument
  | domainError
deriving DecidableEq

/-- Model of a `CImg<double>` backing store: a shape
(`width`, `height`, `spectrum`) and the dense sample data, read by
`(x, y, channel)`. -/
structure CImgD where
  width : ℕ
  height : ℕ
  spectrum : ℕ
  data : ℕ → ℕ → ℕ → ℚ

/-- Model of the C++ `Image` value: source path, dimensions, channel
count, and the owned backing buffer. -/
structure Image where
  imgPath : String
  width : ℕ
  height : ℕ
  channels : ℕ
  buffer : ℕ → ℕ → ℕ → ℚ

/-- The backing store's raw indexed read `img(x, y, c)`.  In range it
yields the stored sample; out of range the C++ read is undefined, which
the model reports as `none`. -/
def cimgRead (im : Image) (x y c : ℕ) : Option ℚ :=
  if x < im.width ∧ y < im.height ∧ c < im.channels then
    some (im.buffer x y c)
  else
    none

/-- The unchecked discrete lookup (the C++ `operator()` forwarded to the
backing store): a direct read of the sample at `(x, y, c)` with no bounds
checking by this layer. -/
def Image.discreteAt (im : Image) (x y c : ℕ) : ℚ :=
  im.buffer x y c

/-- Outcome of a sampling call: a returned value, a thrown
`std::domain_error`, or an undefined out-of-range backing-store read. -/
inductive AtResult where
  | ok (z : ℚ)
  | domainError
  | undef
deriving DecidableEq

/-- The `size_t` subtraction `n - 1` as computed in `Image::at`'s bound
check (`src/image.cpp` line 124): at `n = 0` it wraps around to
`SIZE_MAX = 2^64 - 1`; for every nonzero `size_t` value it is the
ordinary `n - 1`. -/
def sizetSub1 (n : ℕ) : ℕ :=
  if n = 0 then 2 ^ 64 - 1 else n - 1

/-- `Image::at(w, h, c)` (`src/image.cpp` lines 116-150): validates the
channel and the coordinate box, then bilinearly interpolates between the
four corner samples at `floor`/`ceil` of each coordinate.  The bounds
`width - 1` and `height - 1` are computed in `size_t` arithmetic
(`sizetSub1`), so on a zero-dimension image they wrap to `SIZE_MAX` and
the coordinate validation passes instead of throwing. -/
def Image.at' (im : Image) (w h : ℚ) (c : ℕ) : AtResult :=
  if im.channels ≤ c then
    AtResult.domainError
  else if (sizetSub1 im.width : ℚ) < w ∨ (sizetSub1 im.height : ℚ) < h ∨
      w < 0 ∨ h < 0 then
    AtResult.domainError
  else
    let wLow : ℕ := (Int.floor w).toNat
    let hLow : ℕ := (Int.floor h).toNat
    let wHigh : ℕ := (Int.ceil w).toNat
    let hHigh : ℕ := (Int.ceil h).toNat
    let x : ℚ := w - wLow
    let y : ℚ := h - hLow
    match cimgRead im wLow hLow c, cimgRead im wLow hHigh c,
        cimgRead im wHigh hLow c, cimgRead im wHigh hHigh c with
    | some z00, some z01, some z10, some z11 =>
        AtResult.ok (z00 * (1 - x) * (1 - y) + z10 * x * (1 - y) +
          z01 * (1 - x) * y + z11 * x * y)
    | _, _, _, _ => AtResult.undef

/-- `Image::atH(w, h, c)` (`src/image.cpp` lines 169-183): linear
interpolation along the x-axis at a fixed row, with no bounds checks. -/
def Image.atH (im : Image) (w : ℚ) (h c : ℕ) : AtResult :=
  let wLow : ℕ := (Int.floor w).toNat
  let wHigh : ℕ := (Int.ceil w).toNat
  let x : ℚ := w - wLow
  match cimgRead im wLow h c, cimgRead im wHigh h c with
  | some z0, some z1 => AtResult.ok (z0 * (1 - x) + z1 * x)
  | _, _ => AtResult.undef

/-- `Image::Image(const string&)` (`src/image.cpp` lines 11-20):
construction from a file.  The external decoder's output is the `CImgD`
argument; the constructor derives the metadata from it and rejects any
channel count other than 1 or 3 (`FormatError`). -/
def Image.fromFile (path : String) (decoded : CImgD) : Except ImgError Image :=
  if decoded.spectrum ≠ 1 ∧ decoded.spectrum ≠ 3 then
    Except.error ImgError.formatError
  else
    Except.ok
      { imgPath := path, width := decoded.width, height := decoded.height,
        channels := decoded.spectrum, buffer := decoded.data }

/-- `Image::Image(size_t, size_t, size_t)` (`src/image.cpp` lines 30-39):
explicit-size construction with an uninitialized buffer (uninitialized
samples are modelled as 0; no claim reads them).  Rejects any channel
count other than 1 or 3 (`InvalidArgument`). -/
def Image.withSize (width height channels : ℕ) : Except ImgError Image :=
  if channels ≠ 1 ∧ channels ≠ 3 then
    Except.error ImgError.invalidArgument
  else
    Except.ok
      { imgPath := "new_img.png", width := width, height := height,
        channels := channels, buffer := fun _ _ _ => 0 }

/-- `Image::Image(size_t, size_t, size_t, double)` (`src/image.cpp` lines
50-59): explicit-size construction with every sample set to `val`.
Rejects any channel count other than 1 or 3 (`InvalidArgument`). -/
def Image.withSizeFill (width height channels : ℕ) (val : ℚ) :
    Except ImgError Image :=
  if channels ≠ 1 ∧ channels ≠ 3 then
    Except.error ImgError.invalidArgument
  else
    Except.ok
      { imgPath := "new_img.png", width := width, height := height,
        channels := channels, buffer := fun _ _ _ => val }

/-- `Image::Image(CImg<double>&&)` (`src/image.cpp` lines 69-75): move
construction adopting an already-populated backing store.  Metadata is
derived from the store's own shape; no channel validation is performed. -/
def Image.ofCImg (c : CImgD) : Image :=
  { imgPath := "new_img.png", width := c.width, height := c.height,
    channels := c.spectrum, buffer := c.data }

/-- `Image::operator=(CImg<double>&&)` (`src/image.cpp` lines 231-240):
move assignment replacing the buffer of an existing instance.  All
metadata is rederived from the incoming store's shape; no channel
validation is performed.  The result is the state of `im` afterward. -/
def Image.assignCImg (_im : Image) (c : CImgD) : Image :=
  { imgPath := "new_img.png", width := c.width, height := c.height,
    channels := c.spectrum, buffer := c.data }

/-- The luminance value computed for pixel `(w, h)` in
`Image::toGrayscale` (`src/image.cpp` line 212):
`red * 0.3 + green * 0.59 + blue * 0.11` from the discrete channel-0/1/2
samples. -/
def grayVal (im : Image) (w h : ℕ) : ℚ :=
  im.buffer w h 0 * 0.3 + im.buffer w h 1 * 0.59 + im.buffer w h 2 * 0.11

/-- A single write `grayscale.img(w, h) = gray` into a buffer: the cell
`(w, h, 0)` is set to `v`, all other cells are unchanged. -/
def setPix (buf : ℕ → ℕ → ℕ → ℚ) (x y : ℕ) (v : ℚ) : ℕ → ℕ → ℕ → ℚ :=
  fun a b c => if a = x ∧ b = y ∧ c = 0 then v else buf a b c

/-- The inner loop of `Image::toGrayscale` (`src/image.cpp` lines
207-214): for a fixed column `w`, writes the luminance of rows
`0, …, n-1` in increasing order. -/
def grayCol (im : Image) (w : ℕ) : ℕ → (ℕ → ℕ → ℕ → ℚ) → (ℕ → ℕ → ℕ → ℚ)
  | 0, buf => buf
  | Nat.succ h, buf => setPix (grayCol im w h buf) w h (grayVal im w h)

/-- The outer loop of `Image::toGrayscale` (`src/image.cpp` lines
206-215): runs the inner row loop for columns `0, …, n-1` in increasing
order. -/
def grayRows (im : Image) : ℕ → (ℕ → ℕ → ℕ → ℚ) → (ℕ → ℕ → ℕ → ℚ)
  | 0, buf => buf
  | Nat.succ w, buf => grayCol im w im.height (grayRows im w buf)

/-- `Image::toGrayscale()` (`src/image.cpp` lines 194-218): if the image
is already single-channel, return a copy of it; otherwise build a new
single-channel image of the same width/height whose every pixel is the
luminance `0.3*R + 0.59*G + 0.11*B` of the source pixel.  The new image's
buffer starts uninitialized (modelled as 0) and is filled by the loops. -/
def Image.toGrayscale (im : Image) : Image :=
  if im.channels = 1 then
    im
  else
    { imgPath := "new_img.png", width := im.width, height := im.height,
      channels := 1, buffer := grayRows im im.width (fun _ _ _ => 0) }

/-- The 2×2 single-channel test image `[[1,2],[3,4]]` (row-major by
`(w, h)`) used by the spec's examples. -/
def img2x2 : Image :=
  { imgPath := "new_img.png", width := 2, height := 2, channels := 1,
    buffer := fun x y _ =>
      if x = 0 ∧ y = 0 then 1
      else if x = 1 ∧ y = 0 then 2
      else if x = 0 ∧ y = 1 then 3
      else 4 }

/-- A 2×2 pure-red RGB test image (`R = 255`, `G = B = 0` at every
pixel). -/
def redImg : Image :=
  { imgPath := "new_img.png", width := 2, height := 2, channels := 3,
    buffer := fun _ _ c => if c = 0 then 255 else 0 }

/-- A 2×2 backing store with 2 channels: a shape that the checked
constructors reject but that buffer adoption accepts unvalidated. -/
def cimg2ch : CImgD :=
  { width := 2, height := 2, spectrum := 2, data := fun _ _ _ => 0 }

/-- A 0×5 single-channel image, exactly as produced by
`Image(0, 5, 1)`: explicit-size construction never validates the
spatial dimensions. -/
def img0 : Image :=
  { imgPath := "new_img.png", width := 0, height := 5, channels := 1,
    buffer := fun _ _ _ => 0 }

lemma sizetSub1_cast {n : ℕ} (hn : 1 ≤ n) :
    ((sizetSub1 n : ℕ) : ℚ) = (n : ℚ) - 1 := by
  unfold sizetSub1
  rw [if_neg (by omega)]
  rw [Nat.cast_sub hn, Nat.cast_one]

lemma cimgRead_in (im : Image) (x y c : ℕ) (hx : x < im.width)
    (hy : y < im.height) (hc : c < im.channels) :
    cimgRead im x y c = some (im.buffer x y c) := by
  unfold cimgRead
  rw [if_pos ⟨hx, hy, hc⟩]

lemma floor_toNat_lt (w : ℚ) (n : ℕ) (hw0 : 0 ≤ w)
    (hw1 : w ≤ (n : ℚ) - 1) : (Int.floor w).toNat < n := by
  have h0 : 0 ≤ Int.floor w := Int.floor_nonneg.mpr hw0
  have h1 : Int.floor w ≤ (n : ℤ) - 1 := by
    rw [Int.floor_le_iff]
    push_cast
    linarith
  omega

lemma ceil_toNat_lt (w : ℚ) (n : ℕ) (hw0 : 0 ≤ w)
    (hw1 : w ≤ (n : ℚ) - 1) : (Int.ceil w).toNat < n := by
  have h0 : 0 ≤ Int.ceil w := Int.ceil_nonneg hw0
  have h1 : Int.ceil w ≤ (n : ℤ) - 1 := by
    rw [Int.ceil_le]
    push_cast
    linarith
  omega

/-- Master evaluation lemma for `Image.at'`: inside the validated box the
call returns the bilinear combination of the four corner samples. -/
lemma at_eval (im : Image) (w h : ℚ) (c : ℕ)
    (hc : c < im.channels) (hw0 : 0 ≤ w) (hw1 : w ≤ (im.width : ℚ) - 1)
    (hh0 : 0 ≤ h) (hh1 : h ≤ (im.height : ℚ) - 1) :
    im.at' w h c = AtResult.ok
      (im.buffer (Int.floor w).toNat (Int.floor h).toNat c *
          (1 - (w - ((Int.floor w).toNat : ℚ))) *
          (1 - (h - ((Int.floor h).toNat : ℚ))) +
        im.buffer (Int.ceil w).toNat (Int.floor h).toNat c *
          (w - ((Int.floor w).toNat : ℚ)) *
          (1 - (h - ((Int.floor h).toNat : ℚ))) +
        im.buffer (Int.floor w).toNat (Int.ceil h).toNat c *
          (1 - (w - ((Int.floor w).toNat : ℚ))) *
          (h - ((Int.floor h).toNat : ℚ)) +
        im.buffer (Int.ceil w).toNat (Int.ceil h).toNat c *
          (w - ((Int.floor w).toNat : ℚ)) *
          (h - ((Int.floor h).toNat : ℚ))) := by
  have hA : ¬ im.channels ≤ c := by omega
  have hW1 : 1 ≤ im.width := by
    have h1 : (1 : ℚ) ≤ (im.width : ℚ) := by linarith
    exact_mod_cast h1
  have hH1 : 1 ≤ im.height := by
    have h1 : (1 : ℚ) ≤ (im.height : ℚ) := by linarith
    exact_mod_cast h1
  have hB : ¬ ((sizetSub1 im.width : ℚ) < w ∨
      (sizetSub1 im.height : ℚ) < h ∨ w < 0 ∨ h < 0) := by
    push_neg
    rw [sizetSub1_cast hW1, sizetSub1_cast hH1]
    exact ⟨hw1, hh1, hw0, hh0⟩
  have r00 := cimgRead_in im (Int.floor w).toNat (Int.floor h).toNat c
    (floor_toNat_lt w im.width hw0 hw1)
    (floor_toNat_lt h im.height hh0 hh1) hc
  have r01 := cimgRead_in im (Int.floor w).toNat (Int.ceil h).toNat c
    (floor_toNat_lt w im.width hw0 hw1)
    (ceil_toNat_lt h im.height hh0 hh1) hc
  have r10 := cimgRead_in im (Int.ceil w).toNat (Int.floor h).toNat c
    (ceil_toNat_lt w im.width hw0 hw1)
    (floor_toNat_lt h im.height hh0 hh1) hc
  have r11 := cimgRead_in im (Int.ceil w).toNat (Int.ceil h).toNat c
    (ceil_toNat_lt w im.width hw0 hw1)
    (ceil_toNat_lt h im.height hh0 hh1) hc
  simp only [Image.at', hA, hB, if_false, r00, r01, r10, r11]

/-- Master evaluation lemma for `Image.atH`: when the row, channel and
horizontal coordinate are in range the call returns the linear
combination of the two neighbour samples. -/
lemma atH_eval (im : Image) (w : ℚ) (h c : ℕ)
    (hh : h < im.height) (hc : c < im.channels)
    (hw0 : 0 ≤ w) (hw1 : w ≤ (im.width : ℚ) - 1) :
    im.atH w h c = AtResult.ok
      (im.buffer (Int.floor w).toNat h c *
          (1 - (w - ((Int.floor w).toNat : ℚ))) +
        im.buffer (Int.ceil w).toNat h c *
          (w - ((Int.floor w).toNat : ℚ))) := by
  have r0 := cimgRead_in im (Int.floor w).toNat h c
    (floor_toNat_lt w im.width hw0 hw1) hh hc
  have r1 := cimgRead_in im (Int.ceil w).toNat h c
    (ceil_toNat_lt w im.width hw0 hw1) hh hc
  simp only [Image.atH, r0, r1]

lemma floor_natCast_toNat (a : ℕ) : (Int.floor ((a : ℚ))).toNat = a := by
  simp

lemma ceil_natCast_toNat (a : ℕ) : (Int.ceil ((a : ℚ))).toNat = a := by
  simp

lemma natCast_le_sub_one {a n : ℕ} (h : a < n) : (a : ℚ) ≤ (n : ℚ) - 1 := by
  have h1 : (a : ℚ) + 1 ≤ (n : ℚ) := by
    exact_mod_cast Nat.succ_le_of_lt h
  linarith

/-- Value of the buffer after the inner row loop: the cells `(w, b, 0)`
with `b < n` hold the luminance, everything else is untouched. -/
lemma grayCol_at (im : Image) (w n : ℕ) (buf : ℕ → ℕ → ℕ → ℚ)
    (a b c : ℕ) :
    grayCol im w n buf a b c =
      if a = w ∧ b < n ∧ c = 0 then grayVal im w b else buf a b c := by
  induction n with
  | zero => simp [grayCol]
  | succ n ih =>
    simp only [grayCol, setPix, ih]
    by_cases hc0 : c = 0
    · subst hc0
      by_cases haw : a = w
      · subst haw
        by_cases hb : b = n
        · subst hb
          simp [Nat.lt_succ_iff]
        · have : (b < n) = (b < n + 1) := by
            simp only [eq_iff_iff]
            omega
          simp [hb, this]
      · simp [haw]
    · simp [hc0]

/-- Value of the buffer after the full double loop: every cell
`(a, b, 0)` with `a < n`, `b < height` holds the luminance, everything
else is untouched. -/
lemma grayRows_at (im : Image) (n : ℕ) (buf : ℕ → ℕ → ℕ → ℚ)
    (a b c : ℕ) :
    grayRows im n buf a b c =
      if a < n ∧ b < im.height ∧ c = 0 then grayVal im a b
      else buf a b c := by
  induction n generalizing buf with
  | zero => simp [grayRows]
  | succ n ih =>
    simp only [grayRows, grayCol_at, ih]
    by_cases hc0 : c = 0
    · subst hc0
      by_cases han : a = n
      · subst han
        by_cases hb : b < im.height
        · simp [hb]
        · simp [hb]
      · have : (a < n) = (a < n + 1) := by
          simp only [eq_iff_iff]
          omega
        simp [han, this]
    · simp [hc0]

/-- C1: for every channel `c < channels` and continuous coordinates
`w ∈ [0, width-1]`, `h ∈ [0, height-1]`, `at(w, h, c)` returns exactly
`z00*(1-x)*(1-y) + z10*x*(1-y) + z01*(1-x)*y + z11*x*y`, where
`wLow = ⌊w⌋`, `wHigh = ⌈w⌉`, `hLow = ⌊h⌋`, `hHigh = ⌈h⌉`,
`x = w - wLow`, `y = h - hLow`, and the `z`s are the backing-store
samples at the corresponding corners. -/
theorem at_bilinear_formula (im : Image) (w h : ℚ) (c : ℕ)
    (hc : c < im.channels) (hw0 : 0 ≤ w) (hw1 : w ≤ (im.width : ℚ) - 1)
    (hh0 : 0 ≤ h) (hh1 : h ≤ (im.height : ℚ) - 1) :
    im.at' w h c = AtResult.ok
      (im.discreteAt (Int.floor w).toNat (Int.floor h).toNat c *
          (1 - (w - ((Int.floor w).toNat : ℚ))) *
          (1 - (h - ((Int.floor h).toNat : ℚ))) +
        im.discreteAt (Int.ceil w).toNat (Int.floor h).toNat c *
          (w - ((Int.floor w).toNat : ℚ)) *
          (1 - (h - ((Int.floor h).toNat : ℚ))) +
        im.discreteAt (Int.floor w).toNat (Int.ceil h).toNat c *
          (1 - (w - ((Int.floor w).toNat : ℚ))) *
          (h - ((Int.floor h).toNat : ℚ)) +
        im.discreteAt (Int.ceil w).toNat (Int.ceil h).toNat c *
          (w - ((Int.floor w).toNat : ℚ)) *
          (h - ((Int.floor h).toNat : ℚ))) :=
  at_eval im w h c hc hw0 hw1 hh0 hh1

/-- C2 (amended): `at(w, h, c)` with `c ≥ channels` always throws
`DomainError`; on an image with `width ≥ 1` and `height ≥ 1` a
coordinate outside `[0, width-1] × [0, height-1]` also always throws
`DomainError`; and for arguments inside those ranges it never does.
(On a zero-dimension image the `size_t` bound `width - 1` wraps to
`SIZE_MAX`, the coordinate validation passes, and the call proceeds to
unchecked out-of-range reads instead of throwing.) -/
theorem at_domain_error_iff (im : Image) (w h : ℚ) (c : ℕ) :
    (im.channels ≤ c → im.at' w h c = AtResult.domainError)
  ∧ (1 ≤ im.width → 1 ≤ im.height →
      ((im.width : ℚ) - 1 < w ∨ w < 0 ∨
        (im.height : ℚ) - 1 < h ∨ h < 0) →
      im.at' w h c = AtResult.domainError)
  ∧ ((c < im.channels ∧ 0 ≤ w ∧ w ≤ (im.width : ℚ) - 1 ∧
        0 ≤ h ∧ h ≤ (im.height : ℚ) - 1) →
      im.at' w h c ≠ AtResult.domainError) := by
  refine ⟨?_, ?_, ?_⟩
  · intro hch
    unfold Image.at'
    rw [if_pos hch]
  · intro hW hH hbad
    unfold Image.at'
    by_cases hch : im.channels ≤ c
    · rw [if_pos hch]
    · rw [if_neg hch, if_pos]
      rw [sizetSub1_cast hW, sizetSub1_cast hH]
      rcases hbad with hb | hb | hb | hb
      · exact Or.inl hb
      · exact Or.inr (Or.inr (Or.inl hb))
      · exact Or.inr (Or.inl hb)
      · exact Or.inr (Or.inr (Or.inr hb))
  · rintro ⟨hc, hw0, hw1, hh0, hh1⟩
    rw [at_eval im w h c hc hw0 hw1 hh0 hh1]
    simp

/-- C3: at integer-valued grid coordinates `(a, b)` (with `a < width`,
`b < height`, `c < channels`), `at` returns exactly the discrete
backing-store sample — the interpolation reduces to the identity. -/
theorem at_grid_identity (im : Image) (a b c : ℕ)
    (ha : a < im.width) (hb : b < im.height) (hc : c < im.channels) :
    im.at' (a : ℚ) (b : ℚ) c = AtResult.ok (im.discreteAt a b c) := by
  rw [at_eval im (a : ℚ) (b : ℚ) c hc (by positivity)
    (natCast_le_sub_one ha) (by positivity) (natCast_le_sub_one hb)]
  rw [floor_natCast_toNat, ceil_natCast_toNat, floor_natCast_toNat,
    ceil_natCast_toNat]
  rw [Image.discreteAt]
  ring_nf

/-- C9: whenever `at`'s validation passes, all four unchecked corner
reads are in bounds (`⌊w⌋, ⌈w⌉ ∈ [0, width-1]`, `⌊h⌋, ⌈h⌉ ∈
[0, height-1]`), so the out-of-range branch of the backing store is
never taken and the call returns a value. -/
theorem at_corner_reads_safe (im : Image) (w h : ℚ) (c : ℕ)
    (hc : c < im.channels) (hw0 : 0 ≤ w) (hw1 : w ≤ (im.width : ℚ) - 1)
    (hh0 : 0 ≤ h) (hh1 : h ≤ (im.height : ℚ) - 1) :
    (Int.floor w).toNat < im.width ∧ (Int.ceil w).toNat < im.width ∧
    (Int.floor h).toNat < im.height ∧ (Int.ceil h).toNat < im.height ∧
    im.at' w h c ≠ AtResult.undef := by
  refine ⟨floor_toNat_lt w im.width hw0 hw1,
    ceil_toNat_lt w im.width hw0 hw1,
    floor_toNat_lt h im.height hh0 hh1,
    ceil_toNat_lt h im.height hh0 hh1, ?_⟩
  rw [at_eval im w h c hc hw0 hw1 hh0 hh1]
  simp

/-- C4: `atH(w, h, c)` performs no bounds validation (it can never throw
`DomainError`); for `h < height`, `c < channels`, `w ∈ [0, width-1]` it
returns `z0*(1-x) + z1*x` with `z0`, `z1` the discrete samples at
`(⌊w⌋, h, c)` and `(⌈w⌉, h, c)` and `x = w - ⌊w⌋`; and at integer-valued
`w` it equals the discrete sample exactly. -/
theorem atH_spec (im : Image) :
    (∀ (w : ℚ) (h c : ℕ), im.atH w h c ≠ AtResult.domainError)
  ∧ (∀ (w : ℚ) (h c : ℕ), h < im.height → c < im.channels →
      0 ≤ w → w ≤ (im.width : ℚ) - 1 →
      im.atH w h c = AtResult.ok
        (im.discreteAt (Int.floor w).toNat h c *
            (1 - (w - ((Int.floor w).toNat : ℚ))) +
          im.discreteAt (Int.ceil w).toNat h c *
            (w - ((Int.floor w).toNat : ℚ))))
  ∧ (∀ a h c : ℕ, a < im.width → h < im.height → c < im.channels →
      im.atH (a : ℚ) h c = AtResult.ok (im.discreteAt a h c)) := by
  refine ⟨?_, ?_, ?_⟩
  · intro w h c
    unfold Image.atH
    cases h0 : cimgRead im (Int.floor w).toNat h c <;>
      cases h1 : cimgRead im (Int.ceil w).toNat h c <;> simp [h0, h1]
  · intro w h c hh hc hw0 hw1
    exact atH_eval im w h c hh hc hw0 hw1
  · intro a h c ha hh hc
    rw [atH_eval im (a : ℚ) h c hh hc (by positivity)
      (natCast_le_sub_one ha)]
    rw [floor_natCast_toNat, ceil_natCast_toNat, Image.discreteAt]
    ring_nf

/-- C5: on a 3-channel image `toGrayscale` returns a new image of the
same width and height with exactly one channel whose every pixel is
`0.3*R + 0.59*G + 0.11*B` of the source's discrete samples, with no
rounding or clamping. -/
theorem toGrayscale_rgb (im : Image) (h3 : im.channels = 3) :
    (im.toGrayscale).width = im.width ∧
    (im.toGrayscale).height = im.height ∧
    (im.toGrayscale).channels = 1 ∧
    ∀ w h : ℕ, w < im.width → h < im.height →
      (im.toGrayscale).buffer w h 0 =
        im.discreteAt w h 0 * 0.3 + im.discreteAt w h 1 * 0.59 +
          im.discreteAt w h 2 * 0.11 := by
  have hne : ¬ im.channels = 1 := by omega
  unfold Image.toGrayscale
  rw [if_neg hne]
  refine ⟨rfl, rfl, rfl, ?_⟩
  intro w h hw hh
  show grayRows im im.width (fun _ _ _ => 0) w h 0 = _
  rw [grayRows_at]
  rw [if_pos ⟨hw, hh, rfl⟩]
  rfl

/-- C8: `toGrayscale` never mutates its source (it is a pure function of
the image value), and on a 1-channel image it returns an image equal in
content — same width, height, channels and samples — to the original. -/
theorem toGrayscale_gray_copy (im : Image) (h1 : im.channels = 1) :
    im.toGrayscale = im := by
  unfold Image.toGrayscale
  rw [if_pos h1]

/-- C6: construction with a channel count other than 1 or 3 fails with
the appropriate typed error — `FormatError` for file decode,
`InvalidArgument` for explicit size (with or without fill) — while
channel counts 1 and 3 raise neither error. -/
theorem construction_channel_validation (ch : ℕ) :
    ((ch ≠ 1 ∧ ch ≠ 3) →
      ∀ (path : String) (d : CImgD) (w h : ℕ) (v : ℚ),
        (d.spectrum = ch →
          Image.fromFile path d = Except.error ImgError.formatError) ∧
        Image.withSize w h ch = Except.error ImgError.invalidArgument ∧
        Image.withSizeFill w h ch v =
          Except.error ImgError.invalidArgument)
  ∧ ((ch = 1 ∨ ch = 3) →
      ∀ (path : String) (d : CImgD) (w h : ℕ) (v : ℚ),
        (d.spectrum = ch → ∃ im, Image.fromFile path d = Except.ok im) ∧
        (∃ im, Image.withSize w h ch = Except.ok im) ∧
        (∃ im, Image.withSizeFill w h ch v = Except.ok im)) := by
  constructor
  · rintro ⟨hne1, hne3⟩ path d w h v
    refine ⟨?_, ?_, ?_⟩
    · intro hd
      unfold Image.fromFile
      rw [if_pos]
      rw [hd]
      exact ⟨hne1, hne3⟩
    · unfold Image.withSize
      rw [if_pos ⟨hne1, hne3⟩]
    · unfold Image.withSizeFill
      rw [if_pos ⟨hne1, hne3⟩]
  · intro hok path d w h v
    have hcond : ¬ (ch ≠ 1 ∧ ch ≠ 3) := by tauto
    have hdcond : ∀ s : ℕ, s = ch → ¬ (s ≠ 1 ∧ s ≠ 3) := by
      intro s hs
      rw [hs]
      exact hcond
    refine ⟨?_, ?_, ?_⟩
    · intro hd
      refine ⟨Image.mk path d.width d.height d.spectrum d.data, ?_⟩
      unfold Image.fromFile
      rw [if_neg (hdcond d.spectrum hd)]
    · refine ⟨Image.mk "new_img.png" w h ch (fun _ _ _ => 0), ?_⟩
      unfold Image.withSize
      rw [if_neg hcond]
    · refine ⟨Image.mk "new_img.png" w h ch (fun _ _ _ => v), ?_⟩
      unfold Image.withSizeFill
      rw [if_neg hcond]

/-- C10: explicit-size construction does not validate the spatial
dimensions: for any width and height (zero included), both `WithSize`
overloads succeed whenever `channels ∈ {1, 3}`, and the stored width and
height equal the requested values. -/
theorem withSize_no_dimension_validation (w h ch : ℕ)
    (hch : ch = 1 ∨ ch = 3) :
    (∃ im, Image.withSize w h ch = Except.ok im ∧
      im.width = w ∧ im.height = h ∧ im.channels = ch)
  ∧ ∀ v : ℚ, ∃ im, Image.withSizeFill w h ch v = Except.ok im ∧
      im.width = w ∧ im.height = h ∧ im.channels = ch := by
  have hcond : ¬ (ch ≠ 1 ∧ ch ≠ 3) := by tauto
  constructor
  · refine ⟨Image.mk "new_img.png" w h ch (fun _ _ _ => 0), ?_,
      rfl, rfl, rfl⟩
    unfold Image.withSize
    rw [if_neg hcond]
  · intro v
    refine ⟨Image.mk "new_img.png" w h ch (fun _ _ _ => v), ?_,
      rfl, rfl, rfl⟩
    unfold Image.withSizeFill
    rw [if_neg hcond]

/-- C7 (amended): the checked constructors establish
`channels ∈ {1, 3}`, `toGrayscale` always yields a 1-channel image, and
buffer adoption (move construction and move assignment) preserves the
invariant exactly when the adopted store's channel count is 1 or 3 —
adoption itself performs no validation. -/
theorem channels_invariant (im : Image) :
    (∀ (w h ch : ℕ) (i : Image), Image.withSize w h ch = Except.ok i →
      i.channels = 1 ∨ i.channels = 3)
  ∧ (∀ (w h ch : ℕ) (v : ℚ) (i : Image),
      Image.withSizeFill w h ch v = Except.ok i →
      i.channels = 1 ∨ i.channels = 3)
  ∧ (∀ (path : String) (d : CImgD) (i : Image),
      Image.fromFile path d = Except.ok i →
      i.channels = 1 ∨ i.channels = 3)
  ∧ (im.toGrayscale).channels = 1
  ∧ (∀ d : CImgD, d.spectrum = 1 ∨ d.spectrum = 3 →
      (Image.ofCImg d).channels = 1 ∨ (Image.ofCImg d).channels = 3)
  ∧ (∀ d : CImgD, d.spectrum = 1 ∨ d.spectrum = 3 →
      (im.assignCImg d).channels = 1 ∨ (im.assignCImg d).channels = 3) := by
  refine ⟨?_, ?_, ?_, ?_, ?_, ?_⟩
  · intro w h ch i hok
    unfold Image.withSize at hok
    by_cases hcond : ch ≠ 1 ∧ ch ≠ 3
    · rw [if_pos hcond] at hok
      exact absurd hok (by simp)
    · rw [if_neg hcond] at hok
      cases hok
      tauto
  · intro w h ch v i hok
    unfold Image.withSizeFill at hok
    by_cases hcond : ch ≠ 1 ∧ ch ≠ 3
    · rw [if_pos hcond] at hok
      exact absurd hok (by simp)
    · rw [if_neg hcond] at hok
      cases hok
      tauto
  · intro path d i hok
    unfold Image.fromFile at hok
    by_cases hcond : d.spectrum ≠ 1 ∧ d.spectrum ≠ 3
    · rw [if_pos hcond] at hok
      exact absurd hok (by simp)
    · rw [if_neg hcond] at hok
      cases hok
      tauto
  · unfold Image.toGrayscale
    by_cases h1 : im.channels = 1
    · rw [if_pos h1]
      exact h1
    · rw [if_neg h1]
  · intro d hd
    exact hd
  · intro d hd
    exact hd

/-- C7, counterexample to the claim as stated: move assignment performs
no channel validation, so assigning a 2-channel backing store into a
valid 1-channel image leaves the instance with `channels = 2 ∉ {1, 3}` —
the invariant can be broken after construction time. -/
theorem channels_invariant_counterexample :
    img2x2.channels = 1 ∧
    (img2x2.assignCImg cimg2ch).channels = 2 ∧
    ¬ ((img2x2.assignCImg cimg2ch).channels = 1 ∨
       (img2x2.assignCImg cimg2ch).channels = 3) := by
  refine ⟨rfl, rfl, ?_⟩
  rintro (h | h) <;> exact absurd h (by decide)

/-- A 2×2 single-channel backing store, a valid shape for adoption. -/
def cimg1ch : CImgD :=
  { width := 2, height := 2, spectrum := 1, data := fun _ _ _ => 0 }

/-- Witness for C1: on the 2×2 image `[[1,2],[3,4]]` the hypotheses hold
at `(1/2, 1/2, 0)` and the bilinear formula gives the four-corner mean
`5/2`. -/
theorem at_bilinear_formula_witness :
    (0 < img2x2.channels ∧ (0:ℚ) ≤ 1/2 ∧
      (1/2 : ℚ) ≤ (img2x2.width : ℚ) - 1) ∧
    img2x2.at' (1/2) (1/2) 0 = AtResult.ok (5/2) := by
  constructor
  · refine ⟨by decide, by norm_num, by norm_num [img2x2]⟩
  · rw [at_bilinear_formula img2x2 (1/2) (1/2) 0 (by decide)
      (by norm_num) (by norm_num [img2x2]) (by norm_num)
      (by norm_num [img2x2])]
    have hf : (Int.floor ((1:ℚ)/2)) = 0 := by norm_num
    have hc : (Int.ceil ((1:ℚ)/2)) = 1 := by
      rw [Int.ceil_eq_iff]
      norm_num
    rw [show ((1:ℚ)/2) = (1/2 : ℚ) from rfl] at hf hc
    rw [hf, hc]
    norm_num [img2x2, Image.discreteAt, Int.toNat_zero, Int.toNat_one]

/-- Witness for C2 (amended): on the 2×2 image, `at(1/2, 1/2, 1)` with
a bad channel throws, `at(5, 1/2, 0)` with an out-of-range coordinate
throws, and the in-range call `at(1/2, 1/2, 0)` does not. -/
theorem at_domain_error_iff_witness :
    img2x2.at' (1/2) (1/2) 1 = AtResult.domainError ∧
    img2x2.at' 5 (1/2) 0 = AtResult.domainError ∧
    img2x2.at' (1/2) (1/2) 0 ≠ AtResult.domainError :=
  ⟨(at_domain_error_iff img2x2 (1/2) (1/2) 1).1 (by decide),
    (at_domain_error_iff img2x2 5 (1/2) 0).2.1 (by decide) (by decide)
      (Or.inl (by norm_num [img2x2])),
    (at_domain_error_iff img2x2 (1/2) (1/2) 0).2.2
      (by norm_num [img2x2])⟩

/-- C2, counterexample to the claim as stated: on the 0×5 image (which
`Image(0, 5, 1)` constructs, dimensions unvalidated) every `w` is
outside the empty range `[0, width-1]`, yet `at(0, 0, 0)` does not
throw `DomainError` — the `size_t` bound `width - 1` wraps to
`SIZE_MAX`, validation passes, and the call reaches the unchecked
backing-store reads. -/
theorem at_domain_error_counterexample :
    Image.withSize 0 5 1 = Except.ok img0 ∧
    img0.width = 0 ∧
    img0.at' 0 0 0 ≠ AtResult.domainError := by
  refine ⟨rfl, rfl, ?_⟩
  have hguard : ¬ ((sizetSub1 img0.width : ℚ) < 0 ∨
      (sizetSub1 img0.height : ℚ) < 0 ∨ (0 : ℚ) < 0 ∨ (0 : ℚ) < 0) := by
    push_neg
    exact ⟨Nat.cast_nonneg _, Nat.cast_nonneg _, le_refl 0, le_refl 0⟩
  unfold Image.at'
  rw [if_neg (by decide), if_neg hguard]
  simp [cimgRead, img0]

/-- Witness for C3: on the 2×2 image `[[1,2],[3,4]]`,
`at(0, 0, 0) = 1` and `at(1, 1, 0) = 4`, the discrete samples. -/
theorem at_grid_identity_witness :
    img2x2.at' ((0 : ℕ) : ℚ) ((0 : ℕ) : ℚ) 0 = AtResult.ok 1 ∧
    img2x2.at' ((1 : ℕ) : ℚ) ((1 : ℕ) : ℚ) 0 = AtResult.ok 4 := by
  constructor
  · rw [at_grid_identity img2x2 0 0 0 (by decide) (by decide) (by decide)]
    norm_num [img2x2, Image.discreteAt]
  · rw [at_grid_identity img2x2 1 1 0 (by decide) (by decide) (by decide)]
    norm_num [img2x2, Image.discreteAt]

/-- Witness for C4: on the 2×2 image `[[1,2],[3,4]]`,
`atH(1/2, 0, 0) = 3/2` and at integer `w`, `atH(1, 1, 0) = 4`. -/
theorem atH_spec_witness :
    img2x2.atH (1/2) 0 0 = AtResult.ok (3/2) ∧
    img2x2.atH ((1 : ℕ) : ℚ) 1 0 = AtResult.ok 4 := by
  constructor
  · rw [(atH_spec img2x2).2.1 (1/2) 0 0 (by decide) (by decide)
      (by norm_num) (by norm_num [img2x2])]
    have hf : (Int.floor ((1:ℚ)/2)) = 0 := by norm_num
    have hc : (Int.ceil ((1:ℚ)/2)) = 1 := by
      rw [Int.ceil_eq_iff]
      norm_num
    rw [show ((1:ℚ)/2) = (1/2 : ℚ) from rfl] at hf hc
    rw [hf, hc]
    norm_num [img2x2, Image.discreteAt, Int.toNat_zero, Int.toNat_one]
  · rw [(atH_spec img2x2).2.2 1 1 0 (by decide) (by decide) (by decide)]
    norm_num [img2x2, Image.discreteAt]

/-- Witness for C5: the pure-red 2×2 image converts to a single-channel
image of the same width holding `0.3 * 255 = 76.5` at pixel `(0,0)`. -/
theorem toGrayscale_rgb_witness :
    (redImg.toGrayscale).channels = 1 ∧
    (redImg.toGrayscale).width = 2 ∧
    (redImg.toGrayscale).buffer 0 0 0 = 76.5 := by
  have h := toGrayscale_rgb redImg rfl
  refine ⟨h.2.2.1, ?_, ?_⟩
  · rw [h.1]
    rfl
  · rw [h.2.2.2 0 0 (by decide) (by decide)]
    norm_num [redImg, Image.discreteAt]

/-- Witness for C6: an explicit-size construction with 2 channels fails
with `InvalidArgument`, while 3 channels succeeds. -/
theorem construction_channel_validation_witness :
    Image.withSize 4 4 2 = Except.error ImgError.invalidArgument ∧
    (∃ im, Image.withSize 4 4 3 = Except.ok im) :=
  ⟨((construction_channel_validation 2).1 (by decide) "p" cimg2ch 4 4 0).2.1,
    ((construction_channel_validation 3).2 (Or.inr rfl) "p" cimg2ch 4 4 0).2.1⟩

/-- Witness for C7 (amended): grayscale conversion yields a 1-channel
image, and adopting a 1-channel store keeps the invariant. -/
theorem channels_invariant_witness :
    (img2x2.toGrayscale).channels = 1 ∧
    ((img2x2.assignCImg cimg1ch).channels = 1 ∨
      (img2x2.assignCImg cimg1ch).channels = 3) :=
  ⟨(channels_invariant img2x2).2.2.2.1,
    (channels_invariant img2x2).2.2.2.2.2 cimg1ch (Or.inl rfl)⟩

/-- Witness for C8: converting the already-1-channel 2×2 image returns
an image equal in content to the original. -/
theorem toGrayscale_gray_copy_witness : img2x2.toGrayscale = img2x2 :=
  toGrayscale_gray_copy img2x2 rfl

/-- Witness for C9: at `(1/2, 1/2, 0)` on the 2×2 image all corner
indices are in bounds and the call does not hit the unreachable
backing-store branch. -/
theorem at_corner_reads_safe_witness :
    (Int.floor ((1:ℚ)/2)).toNat < img2x2.width ∧
    (Int.ceil ((1:ℚ)/2)).toNat < img2x2.width ∧
    (Int.floor ((1:ℚ)/2)).toNat < img2x2.height ∧
    (Int.ceil ((1:ℚ)/2)).toNat < img2x2.height ∧
    img2x2.at' ((1:ℚ)/2) ((1:ℚ)/2) 0 ≠ AtResult.undef :=
  at_corner_reads_safe img2x2 ((1:ℚ)/2) ((1:ℚ)/2) 0 (by decide)
    (by norm_num) (by norm_num [img2x2]) (by norm_num)
    (by norm_num [img2x2])

/-- Witness for C10: a zero-width construction with 1 channel succeeds
and stores the requested (zero) width. -/
theorem withSize_no_dimension_validation_witness :
    (∃ im, Image.withSize 0 5 1 = Except.ok im ∧
      im.width = 0 ∧ im.height = 5 ∧ im.channels = 1) ∧
    (∃ im, Image.withSizeFill 0 5 1 7 = Except.ok im ∧
      im.width = 0 ∧ im.height = 5 ∧ im.channels = 1) :=
  ⟨(withSize_no_dimension_validation 0 5 1 (Or.inl rfl)).1,
    (withSize_no_dimension_validation 0 5 1 (Or.inl rfl)).2 7⟩
